import Mathlib

/-!
Verification of the lighter-broadcaster data plane against its specification.

The definitions below are a shallow embedding of the Python sources under
`src/Backend/`: the TTL cache (`cache.py`), the trade merge callback of
`api.py`, the REST retry state machine (`lighter_client.py`), the WebSocket
connector bookkeeping (`websocket_client.py`) and the broadcast hub
(`websocket_server.py`).  Wall-clock instants are integer epoch seconds (`Int`; fractional times play no role in the claims below), Python ints are
`Int`/`Nat`, Python `None`/falsy values are `Option.none` where truthiness
matters, and fallible paths return `Option`/`Except`.
-/

set_option maxRecDepth 4000

namespace LighterBroadcaster

/-! ## Cache (src/Backend/cache.py)

`DataCache` is a dict from string keys to `CacheEntry` guarded by a single
lock; every operation below models one atomic (lock-protected) Python method.
The dict is embedded as an association list with the usual dict update
discipline: replacing an existing key in place, appending a fresh key. -/

/-- `CacheEntry` from cache.py: `{data, timestamp, ttl}`. -/
structure CacheEntry (α : Type) where
  data : α
  timestamp : Int
  ttl : Int
  deriving Repr, DecidableEq

/-- The cache dict `self._cache : Dict[str, CacheEntry]`. -/
abbrev Cache (α : Type) := List (String × CacheEntry α)

/-- Dict lookup `self._cache.get(key)`: first (only, for a real dict) binding. -/
def cacheFind {α : Type} : Cache α → String → Option (CacheEntry α)
  | [], _ => none
  | (k, e) :: rest, key => if k = key then some e else cacheFind rest key

/-- The expiry test of cache.py: `time.time() - entry.timestamp > entry.ttl`. -/
def cacheExpired {α : Type} (e : CacheEntry α) (now : Int) : Bool :=
  decide ((e.ttl : Int) < now - e.timestamp)

/-- `del self._cache[key]` (a dict holds the key at most once). -/
def cacheDelete {α : Type} (c : Cache α) (key : String) : Cache α :=
  c.filter (fun p => p.1 != key)

/-- Dict insert/replace `self._cache[key] = entry`. -/
def cacheSetEntry {α : Type} : Cache α → String → CacheEntry α → Cache α
  | [], key, e => [(key, e)]
  | (k, old) :: rest, key, e =>
    if k = key then (k, e) :: rest else (k, old) :: cacheSetEntry rest key e

/-- `ttl or self.default_ttl` from `DataCache.set`: a `None` or falsy (zero)
ttl argument is replaced by the cache's default. -/
def effectiveTtl (ttl : Option Int) (dflt : Int) : Int :=
  match ttl with
  | none => dflt
  | some t => if t = 0 then dflt else t

/-- The default ttl of the module-level `cache = DataCache()` instance: 5. -/
def defaultTtl : Int := 5

/-- `DataCache.set(key, data, ttl)` executed at wall-clock `now`. -/
def cacheSet {α : Type} (c : Cache α) (key : String) (v : α) (ttl : Option Int)
    (now : Int) (dflt : Int) : Cache α :=
  cacheSetEntry c key ⟨v, now, effectiveTtl ttl dflt⟩

/-- `DataCache.get(key)` at `now`: absent key gives `None`; an expired entry is
deleted and `None` returned; otherwise the stored data.  The second component
is the cache after the call. -/
def cacheGet {α : Type} (c : Cache α) (key : String) (now : Int) :
    Option α × Cache α :=
  match cacheFind c key with
  | none => (none, c)
  | some e => if cacheExpired e now then (none, cacheDelete c key) else (some e.data, c)

/-- One row of the `get_all` result: `{"data": ..., "age": ..., "ttl": ...}`. -/
structure SnapshotEntry (α : Type) where
  data : α
  age : Int
  ttl : Int
  deriving Repr, DecidableEq

/-- `DataCache.get_all()` at `now`: collects every non-expired entry into the
result and deletes the expired ones from the cache afterwards. -/
def cacheGetAll {α : Type} (c : Cache α) (now : Int) :
    List (String × SnapshotEntry α) × Cache α :=
  (c.filterMap (fun p =>
      if cacheExpired p.2 now then none
      else some (p.1, ⟨p.2.data, now - p.2.timestamp, p.2.ttl⟩)),
   c.filter (fun p => !cacheExpired p.2 now))

/-! ### Cache lemmas -/

theorem cacheFind_setEntry_self {α : Type} (c : Cache α) (key : String)
    (e : CacheEntry α) : cacheFind (cacheSetEntry c key e) key = some e := by
  induction c with
  | nil => simp [cacheSetEntry, cacheFind]
  | cons hd tl ih =>
    by_cases h : hd.1 = key
    · simp [cacheSetEntry, cacheFind, h]
    · simp [cacheSetEntry, cacheFind, h, ih]

theorem cacheFind_delete_self {α : Type} (c : Cache α) (key : String) :
    cacheFind (cacheDelete c key) key = none := by
  induction c with
  | nil => simp [cacheDelete, cacheFind]
  | cons hd tl ih =>
    by_cases h : hd.1 = key
    · simpa [cacheDelete, h] using ih
    · simpa [cacheDelete, cacheFind, h] using ih

/-- Every binding of `key` in `cacheSetEntry c key e` carries `e`, provided the
cache's keys are duplicate-free (as a Python dict's always are). -/
theorem setEntry_key_unique {α : Type} (c : Cache α) (key : String)
    (e : CacheEntry α) (hnd : (c.map Prod.fst).Nodup) :
    ∀ p ∈ cacheSetEntry c key e, p.1 = key → p.2 = e := by
  induction c with
  | nil =>
    intro p hp _
    simp [cacheSetEntry] at hp
    simp [hp]
  | cons hd tl ih =>
    simp only [List.map_cons, List.nodup_cons] at hnd
    intro p hp hpk
    by_cases h : hd.1 = key
    · simp [cacheSetEntry, h] at hp
      rcases hp with hp | hp
      · simp [hp]
      · exfalso
        apply hnd.1
        rw [h, ← hpk]
        exact List.mem_map_of_mem Prod.fst hp
    · simp [cacheSetEntry, h] at hp
      rcases hp with hp | hp
      · exact absurd (hp ▸ hpk) h
      · exact ih hnd.2 p hp hpk

theorem cacheFind_filter_none {α : Type} (c : Cache α) (key : String)
    (f : String × CacheEntry α → Bool)
    (h : ∀ p ∈ c, p.1 = key → f p = false) :
    cacheFind (c.filter f) key = none := by
  induction c with
  | nil => simp [cacheFind]
  | cons hd tl ih =>
    by_cases hk : hd.1 = key
    · have := h hd (by simp) hk
      simp [List.filter_cons, this]
      exact ih (fun p hp => h p (by simp [hp]))
    · by_cases hf : f hd
      · simp [List.filter_cons, hf, cacheFind, hk]
        exact ih (fun p hp => h p (by simp [hp]))
      · simp only [Bool.not_eq_true] at hf
        simp [List.filter_cons, hf]
        exact ih (fun p hp => h p (by simp [hp]))

/-! ## Trades and the merge callback (src/Backend/api.py, `on_ws_message`)

A WS trade is a JSON object; the fields the merge logic inspects are `id`,
`trade_id` and `timestamp`, which it combines with Python `or` into an
identity key.  `none` stands for a missing *or falsy* field value, so the
`or`-chain and the `if trade_key:` truthiness test become `Option` plumbing;
`payload` stands for the rest of the object (price, size, ...) so that two
distinct trades can share an identity key. -/

structure Trade where
  id : Option String
  tradeId : Option String
  timestamp : Option String
  payload : Int
  deriving Repr, DecidableEq

/-- `t.get("id") or t.get("trade_id") or t.get("timestamp")`: the first truthy
field, `none` when all three are missing/falsy. -/
def tradeKey (t : Trade) : Option String :=
  match t.id with
  | some k => some k
  | none =>
    match t.tradeId with
    | some k => some k
    | none => t.timestamp

/-- The per-account trades value is a dict `market_id → list of trades`,
embedded as an association list with dict update discipline. -/
abbrev TradesMap := List (Nat × List Trade)

def mapFind : TradesMap → Nat → Option (List Trade)
  | [], _ => none
  | (k, v) :: rest, key => if k = key then some v else mapFind rest key

/-- `existing_trades[market_id] = bucket`: replace in place, else append. -/
def mapSet : TradesMap → Nat → List Trade → TradesMap
  | [], key, v => [(key, v)]
  | (k, old) :: rest, key, v =>
    if k = key then (k, v) :: rest else (k, old) :: mapSet rest key v

/-- `MAX_TRADES_PER_MARKET` from api.py. -/
def MAX_TRADES_PER_MARKET : Nat := 500

/-- Python `l[-n:]` for `n > 0`: the last `n` elements. -/
def lastN {β : Type} (l : List β) (n : Nat) : List β :=
  l.drop (l.length - n)

/-- The retention cap: `if len(bucket) > MAX: bucket = bucket[-MAX:]`. -/
def capBucket (l : List Trade) : List Trade :=
  if MAX_TRADES_PER_MARKET < l.length then lastN l MAX_TRADES_PER_MARKET else l

/-- The `existing_ids` set built over the current bucket (only truthy keys). -/
def existingKeys (bucket : List Trade) : List String :=
  bucket.filterMap tradeKey

/-- The inner merge loop of `on_ws_message`: append each incoming trade whose
(truthy) identity key is in neither `existing_ids` nor already appended. -/
def appendNewTrades (bucket : List Trade) (seen : List String) :
    List Trade → List Trade
  | [] => bucket
  | t :: ts =>
    match tradeKey t with
    | none => appendNewTrades bucket seen ts
    | some k =>
      if k ∈ seen then appendNewTrades bucket seen ts
      else appendNewTrades (bucket ++ [t]) (k :: seen) ts

/-- Merge one incoming market list into an already-present bucket, then cap. -/
def mergeBucket (bucket newList : List Trade) : List Trade :=
  capBucket (appendNewTrades bucket (existingKeys bucket) newList)

/-- The `for market_id, market_trades in new_trades.items()` loop.  An
incoming value that is not a list (`none` here) is skipped; a market already
present is merged and capped; a brand-new market stores the incoming list's
last `MAX_TRADES_PER_MARKET` entries verbatim. -/
def mergeTrades : TradesMap → List (Nat × Option (List Trade)) → TradesMap
  | existing, [] => existing
  | existing, (_, none) :: rest => mergeTrades existing rest
  | existing, (mid, some ts) :: rest =>
    match mapFind existing mid with
    | some bucket => mergeTrades (mapSet existing mid (mergeBucket bucket ts)) rest
    | none => mergeTrades (mapSet existing mid (lastN ts MAX_TRADES_PER_MARKET)) rest

/-- The four volume fields copied from an `account_all_trades` frame
(`data.get(...)` gives `none` when the frame lacks the field). -/
structure Volumes where
  totalVolume : Option Int
  monthlyVolume : Option Int
  weeklyVolume : Option Int
  dailyVolume : Option Int
  deriving Repr, DecidableEq

/-- The value stored under `ws_trades:<id>`. -/
structure WsTradesVal where
  trades : TradesMap
  volumes : Volumes
  timestamp : Int
  deriving Repr, DecidableEq

/-! ## Account configuration (src/Backend/config.py) -/

/-- `AccountConfig` from config.py.  Note: the pydantic model declares *no*
`exchange` field. -/
structure AccountConfig where
  name : String
  accountIndex : Int
  apiKeyIndex : Int
  privateKey : String
  publicKey : String
  proxyUrl : Option String
  deriving Repr, DecidableEq

/-- `_get_exchange_for_account_id` from api.py: scan `settings.accounts`; on
the first account whose `account_index` matches it evaluates
`account.exchange` — but `AccountConfig` has no `exchange` attribute, so that
access raises `AttributeError` (embedded as `.error`); with no match the
function returns `"lighter"`. -/
def getExchangeForAccountId (accounts : List AccountConfig) (accountId : Int) :
    Except String String :=
  match accounts.find? (fun a => a.accountIndex == accountId) with
  | some _ => .error "AttributeError: AccountConfig object has no field exchange"
  | none => .ok "lighter"

/-- Python `s.replace(marker, "")`: delete every occurrence of `marker`,
scanning left to right.  `fuel` bounds the recursion by the input length (one
character or one marker occurrence is consumed per step, so `s.length` fuel
always suffices). -/
def removeMarkerFuel (marker : List Char) : Nat → List Char → List Char
  | 0, l => l
  | _ + 1, [] => []
  | fuel + 1, c :: rest =>
    if marker ≠ [] ∧ marker.isPrefixOf (c :: rest) then
      removeMarkerFuel marker fuel (List.drop (marker.length - 1) rest)
    else
      c :: removeMarkerFuel marker fuel rest

def removeMarker (marker s : List Char) : List Char :=
  removeMarkerFuel marker s.length s

/-- Python `int(s)` as the trades branch uses it (the channel suffix):
defined on non-empty digit strings, `none` (ValueError) otherwise. -/
def digitsVal (l : List Char) : Option Nat :=
  if l ≠ [] ∧ l.all Char.isDigit then
    some (l.foldl (fun acc c => acc * 10 + (c.toNat - 48)) 0)
  else none

/-- `channel.replace("account_all_trades:", "").replace("account_all_trades/", "")`
followed by `int(...)`. -/
def parseTradesAccount (channel : String) : Option Nat :=
  digitsVal (removeMarker "account_all_trades/".data
    (removeMarker "account_all_trades:".data channel.data))

/-- The `account_all_trades` branch of `on_ws_message` (api.py lines
101–162), entered when the channel string contains `account_all_trades` and
none of the earlier markers.  Steps, in source order:
1. parse the account id from the channel suffix (`int` failure is caught by
   `except (ValueError, TypeError): pass`, leaving the cache as it was);
2. `cache.get("ws_trades:<id>")` — this may already delete an expired entry,
   hence the threaded cache `c1`; the stored value itself has no `"data"`
   key, so `existing.get("data", existing)` is the stored value;
3. `_get_exchange_for_account_id(account_id)` — for a *configured* account
   this raises `AttributeError`, which the `(ValueError, TypeError)` handler
   does not catch, so the branch aborts before `cache.set` ever runs (the
   exception is swallowed by `_notify_callbacks`);
4. otherwise merge the incoming markets and rewrite the key with the merged
   trades, the frame's volume fields and `timestamp = now`, TTL 3600.
The per-trade Supabase side effects do not touch the cache and are elided. -/
def handleTradesFrame (accounts : List AccountConfig) (c : Cache WsTradesVal)
    (channel : String) (newTrades : List (Nat × Option (List Trade)))
    (vol : Volumes) (now : Int) : Cache WsTradesVal :=
  match parseTradesAccount channel with
  | none => c
  | some accountId =>
    let key := "ws_trades:" ++ toString accountId
    let res := cacheGet c key now
    let existingTrades :=
      match res.1 with
      | some v => v.trades
      | none => []
    match getExchangeForAccountId accounts (Int.ofNat accountId) with
    | .error _ => res.2
    | .ok _ =>
      cacheSet res.2 key ⟨mergeTrades existingTrades newTrades, vol, now⟩
        (some 3600) now defaultTtl

/-! ## REST connection state (src/Backend/lighter_client.py) -/

def RETRY_PHASE_1_INTERVAL : Int := 60
def RETRY_PHASE_1_MAX_ATTEMPTS : Nat := 5
def RETRY_PHASE_2_INTERVAL : Int := 300
def MAX_REQUEST_HISTORY : Nat := 300

/-- `AccountRestConnection`'s mutable state (the per-account REST retry
tracker).  `requestTimestamps` is the `deque(maxlen=300)`. -/
structure RestConn where
  connected : Bool
  lastSuccessfulRequest : Int
  lastFailedRequest : Int
  totalRequests : Nat
  successfulRequests : Nat
  failedRequests : Nat
  retryPhase : Nat
  phaseAttempts : Nat
  consecutiveFailures : Nat
  lastError : String
  requestTimestamps : List Int
  deriving Repr, DecidableEq

/-- The `__init__` state: connected, phase 1, all counters zero. -/
def initRestConn : RestConn :=
  ⟨true, 0, 0, 0, 0, 0, 1, 0, 0, "", []⟩

/-- `deque(maxlen=300).append(t)`. -/
def pushTimestamp (l : List Int) (t : Int) : List Int :=
  lastN (l ++ [t]) MAX_REQUEST_HISTORY

/-- `_reset_retry_state`. -/
def resetRetryState (c : RestConn) : RestConn :=
  { c with retryPhase := 1, phaseAttempts := 0 }

/-- `_advance_retry_phase`: each call is one phase attempt; after
`RETRY_PHASE_1_MAX_ATTEMPTS` attempts in phase 1, move to phase 2. -/
def advanceRetryPhase (c : RestConn) : RestConn :=
  let c := { c with phaseAttempts := c.phaseAttempts + 1 }
  if c.retryPhase = 1 ∧ RETRY_PHASE_1_MAX_ATTEMPTS ≤ c.phaseAttempts then
    { c with retryPhase := 2, phaseAttempts := 0 }
  else c

/-- `record_success`. -/
def recordSuccess (c : RestConn) (now : Int) : RestConn :=
  resetRetryState
    { c with
      totalRequests := c.totalRequests + 1
      successfulRequests := c.successfulRequests + 1
      lastSuccessfulRequest := now
      connected := true
      consecutiveFailures := 0
      requestTimestamps := pushTimestamp c.requestTimestamps now }

/-- `record_failure`: on the third consecutive failure and beyond, mark
disconnected and advance the retry phase. -/
def recordFailure (c : RestConn) (now : Int) (err : String) : RestConn :=
  let c :=
    { c with
      totalRequests := c.totalRequests + 1
      failedRequests := c.failedRequests + 1
      lastFailedRequest := now
      consecutiveFailures := c.consecutiveFailures + 1
      lastError := err }
  if 3 ≤ c.consecutiveFailures then
    advanceRetryPhase { c with connected := false }
  else c

/-- `_get_retry_interval`. -/
def retryInterval (phase : Nat) : Int :=
  if phase = 1 then RETRY_PHASE_1_INTERVAL else RETRY_PHASE_2_INTERVAL

/-- `should_skip_request`. -/
def shouldSkipRequest (c : RestConn) (now : Int) : Bool :=
  if c.connected then false
  else decide (now - c.lastFailedRequest < retryInterval c.retryPhase)

/-- `force_reconnect`'s per-connection reset. -/
def forceReset (c : RestConn) : RestConn :=
  { resetRetryState c with connected := true, consecutiveFailures := 0 }

/-- `record_failure` applied `n` times at `now` (a run of consecutive
failures with no intervening success). -/
def applyFailures (c : RestConn) (now : Int) : Nat → RestConn
  | 0 => c
  | n + 1 => recordFailure (applyFailures c now n) now ""

/-- The upstream outcome of a REST call when one is actually issued:
`ok` is an HTTP 200 body, the rest mirror the failure taxonomy of
`fetch_account_data` (`asyncio.TimeoutError` / any other exception). -/
inductive AccountFetchOutcome (α : Type) where
  | ok (data : α)
  | timeout
  | exc (msg : String)

/-- `LighterClient.fetch_account_data`, reduced to its connection-state
protocol: if `should_skip_request()` the upstream is not consulted (first
component `false`) and the snapshot cached under `account:<id>` is returned
unchanged; otherwise a request is issued and the connection state updated by
`record_success`/`record_failure`.  The cache write and telemetry of the
success path do not affect this claim and are elided. -/
def fetch_account_data {α : Type} (conn : RestConn) (now : Int)
    (cached : Option α) (upstream : AccountFetchOutcome α) :
    Bool × Option α × RestConn :=
  if shouldSkipRequest conn now then (false, cached, conn)
  else
    match upstream with
    | .ok d => (true, some d, recordSuccess conn now)
    | .timeout => (true, none, recordFailure conn now "Timeout")
    | .exc m => (true, none, recordFailure conn now m)

/-- Upstream outcome of one `accountActiveOrders` GET: HTTP 200 with the
orders list, HTTP 429, another HTTP status, timeout, or an exception. -/
inductive OrdersFetchOutcome (α : Type) where
  | ok (orders : List α)
  | http429
  | httpErr (status : Nat)
  | timeout
  | exc (msg : String)

/-- `LighterClient.fetch_active_orders`, reduced to its connection-state
protocol: on backoff-skip it returns `self._cached_orders.get(account_index,
[])` (the in-memory active-orders list) without touching the upstream;
otherwise the request is issued and every failure path records a failure. -/
def fetch_active_orders {α : Type} (conn : RestConn) (now : Int)
    (cachedOrders : List α) (upstream : OrdersFetchOutcome α) :
    Bool × List α × RestConn :=
  if shouldSkipRequest conn now then (false, cachedOrders, conn)
  else
    match upstream with
    | .ok orders => (true, orders, recordSuccess conn now)
    | .http429 => (true, [], recordFailure conn now "Rate limited (429)")
    | .httpErr s => (true, [], recordFailure conn now ("HTTP " ++ toString s))
    | .timeout => (true, [], recordFailure conn now "Timeout")
    | .exc m => (true, [], recordFailure conn now m)

/-! ## WebSocket connector (src/Backend/websocket_client.py) -/

/-- `AccountWebSocketConnection`'s retry/health state. -/
structure WsConn where
  connected : Bool
  lastPongTime : Int
  lastMessageTime : Int
  reconnectCount : Nat
  totalMessages : Nat
  retryPhase : Nat
  phaseAttempts : Nat
  deriving Repr, DecidableEq

/-- `_advance_retry_phase` (same machine as the REST one). -/
def wsAdvanceRetryPhase (c : WsConn) : WsConn :=
  let c := { c with phaseAttempts := c.phaseAttempts + 1 }
  if c.retryPhase = 1 ∧ RETRY_PHASE_1_MAX_ATTEMPTS ≤ c.phaseAttempts then
    { c with retryPhase := 2, phaseAttempts := 0 }
  else c

/-- `_reset_retry_state`. -/
def wsResetRetryState (c : WsConn) : WsConn :=
  { c with retryPhase := 1, phaseAttempts := 0 }

/-- `ErrorEntry` from error_collector.py. -/
structure ErrorEntry where
  timestamp : Int
  accountIndex : Int
  accountName : String
  errorType : String
  errorCode : Option Nat
  message : String
  source : String
  deriving Repr, DecidableEq

/-- `ErrorCollector.add_error`: stamps the time and truncates the message to
200 characters. -/
def mkErrorEntry (now : Int) (accountIndex : Int) (accountName : String)
    (errorType : String) (message : String) (source : String)
    (errorCode : Option Nat) : ErrorEntry :=
  ⟨now, accountIndex, accountName, errorType, errorCode, message.take 200, source⟩

/-- `"429" in error_msg` on the character list of the message. -/
def chars429 : List Char → Bool
  | '4' :: '2' :: '9' :: _ => true
  | _ :: rest => chars429 rest
  | [] => false

def strHas429 (s : String) : Bool := chars429 s.data

/-- The ways one iteration of `AccountWebSocketConnection.connect` can end
(websocket_client.py lines 199–266): the read loop `break`s on a server
CLOSED or ERROR frame, ends after the heartbeat force-closes the socket, or
the iteration raises (`aiohttp.ClientError` / any other exception). -/
inductive LoopExit where
  | closedFrame
  | errorFrame
  | heartbeatClose
  | clientError (msg : String)
  | exc (msg : String)
  deriving Repr, DecidableEq

/-- Whether the iteration ended with a raised exception (one of the two
`except` arms) rather than a clean read-loop exit. -/
def isExceptionExit : LoopExit → Bool
  | .clientError _ => true
  | .exc _ => true
  | _ => false

/-- The bookkeeping `connect` performs between the end of one iteration and
the retry sleep.  Only the two `except` arms bump `reconnect_count`, record
an ErrorEntry (kind `"429"` when the message contains that token, else
`"connection"` for `aiohttp.ClientError` and `"exception"` otherwise, source
`"websocket"`, message truncated to 100 characters before `add_error`) and
advance the retry phase; a read loop that ends without an exception reaches
the retry sleep with none of this bookkeeping. -/
def handleLoopExit (c : WsConn) (accountIndex : Int) (accountName : String)
    (now : Int) : LoopExit → WsConn × Option ErrorEntry
  | .clientError msg =>
    (wsAdvanceRetryPhase { c with reconnectCount := c.reconnectCount + 1, connected := false },
     some (mkErrorEntry now accountIndex accountName
       (if strHas429 msg then "429" else "connection") (msg.take 100) "websocket"
       (if strHas429 msg then some 429 else none)))
  | .exc msg =>
    (wsAdvanceRetryPhase { c with reconnectCount := c.reconnectCount + 1, connected := false },
     some (mkErrorEntry now accountIndex accountName
       (if strHas429 msg then "429" else "exception") (msg.take 100) "websocket"
       (if strHas429 msg then some 429 else none)))
  | _ => (c, none)

/-- A sequence of `connect` iterations ending with the given causes, in
order, collecting the error entries recorded along the way. -/
def processExits (accountIndex : Int) (accountName : String) (now : Int) :
    WsConn → List LoopExit → WsConn × List ErrorEntry
  | c, [] => (c, [])
  | c, cause :: rest =>
    let r := handleLoopExit c accountIndex accountName now cause
    let r2 := processExits accountIndex accountName now r.1 rest
    (r2.1, (match r.2 with | some e => [e] | none => []) ++ r2.2)

/-- The state change of one exceptional iteration (either `except` arm). -/
def wsRecordFailure (c : WsConn) : WsConn :=
  wsAdvanceRetryPhase { c with reconnectCount := c.reconnectCount + 1, connected := false }

/-- `n` consecutive exceptional iterations. -/
def wsFailIter (c : WsConn) : Nat → WsConn
  | 0 => c
  | n + 1 => wsRecordFailure (wsFailIter c n)

/-! ## Broadcast hub (src/Backend/websocket_server.py)

`ConnectionManager` keeps a set of websocket sessions.  Subscribers are an
abstract type `σ` with decidable equality (set membership); whether a
`send_text` to a given subscriber succeeds is an oracle `send : σ → Bool`.
The set is embedded as a duplicate-free list. -/

/-- The delivery loop of `broadcast`: try each subscriber in turn; a
successful send delivers the serialized message, a failed one goes into the
`disconnected` collection.  Returns (deliveries, disconnected). -/
def broadcastLoop {σ : Type} (send : σ → Bool) (msg : String) :
    List σ → List (σ × String) × List σ
  | [] => ([], [])
  | s :: rest =>
    let r := broadcastLoop send msg rest
    if send s then ((s, msg) :: r.1, r.2) else (r.1, s :: r.2)

/-- `disconnect` applied to each failed subscriber after the iteration
(`self.active_connections.discard(conn)`). -/
def discardAll {σ : Type} [DecidableEq σ] (subs bad : List σ) : List σ :=
  subs.filter (fun s => decide (s ∉ bad))

/-- `ConnectionManager.broadcast(data)`: nothing to do for an empty set;
otherwise `json.dumps` once (`serialize`), attempt delivery to each
subscriber, and detach the failures after the iteration.  Returns the
deliveries made and the subscriber set afterwards. -/
def broadcast {σ Fr : Type} [DecidableEq σ] (send : σ → Bool)
    (serialize : Fr → String) (subs : List σ) (frame : Fr) :
    List (σ × String) × List σ :=
  match subs with
  | [] => ([], [])
  | _ =>
    let msg := serialize frame
    let r := broadcastLoop send msg subs
    (r.1, discardAll subs r.2)

/-! ## WebSocket read loop (src/Backend/websocket_client.py)

The read loop of `connect` plus `_notify_callbacks`, folded over the frames
the socket yields.  A TEXT frame's payload either parses (`frame f`) or is
malformed JSON; callbacks are functions that may raise (`Except.error`). -/

inductive TextPayload (Fr : Type) where
  | malformed
  | frame (f : Fr)

inductive InMsg (Fr : Type) where
  | text (p : TextPayload Fr)
  | pong
  | errorFrame
  | closedFrame

/-- `_notify_callbacks`: every callback is invoked; an exception raised by a
callback is caught and logged (collected here), never propagated. -/
def notifyCallbacks {Fr : Type} (cbs : List (Fr → Except String Unit))
    (f : Fr) : List String :=
  cbs.filterMap (fun cb =>
    match cb f with
    | .error e => some e
    | .ok _ => none)

/-- The reader's observable state: activity stamps, the message counter, the
frames dispatched to the callbacks, and the log of caught errors (JSON decode
failures and callback exceptions). -/
structure ReaderState (Fr : Type) where
  lastMessageTime : Int
  lastPongTime : Int
  totalMessages : Nat
  dispatched : List Fr
  logged : List String

/-- The `async for msg in ws` loop: each TEXT frame stamps
`last_message_time`, bumps `total_messages`, and is parsed — a JSON decode
failure is logged and dropped, a parsed frame is dispatched through
`_notify_callbacks` (whose exceptions are caught); PONG stamps
`last_pong_time`; ERROR and CLOSED frames `break` the loop.  Messages are
paired with their arrival instants. -/
def readLoop {Fr : Type} (cbs : List (Fr → Except String Unit)) :
    ReaderState Fr → List (Int × InMsg Fr) → ReaderState Fr
  | st, [] => st
  | st, (t, m) :: rest =>
    match m with
    | .text .malformed =>
      readLoop cbs
        { st with lastMessageTime := t, totalMessages := st.totalMessages + 1,
                  logged := st.logged ++ ["Invalid JSON from WS"] } rest
    | .text (.frame f) =>
      readLoop cbs
        { st with lastMessageTime := t, totalMessages := st.totalMessages + 1,
                  dispatched := st.dispatched ++ [f],
                  logged := st.logged ++ notifyCallbacks cbs f } rest
    | .pong => readLoop cbs { st with lastPongTime := t } rest
    | .errorFrame => st
    | .closedFrame => st

/-- The two frame kinds that `break` the read loop. -/
def isBreakMsg {Fr : Type} : InMsg Fr → Bool
  | .errorFrame => true
  | .closedFrame => true
  | _ => false

def isTextMsg {Fr : Type} : InMsg Fr → Bool
  | .text _ => true
  | _ => false

/-- The frame dispatched by a message, if any. -/
def frameOf {Fr : Type} : InMsg Fr → Option Fr
  | .text (.frame f) => some f
  | _ => none

/-! ## Lemmas about the trades map -/

theorem mapFind_mapSet_self (m : TradesMap) (k : Nat) (v : List Trade) :
    mapFind (mapSet m k v) k = some v := by
  induction m with
  | nil => simp [mapSet, mapFind]
  | cons hd tl ih =>
    by_cases h : hd.1 = k
    · simp [mapSet, mapFind, h]
    · simp [mapSet, mapFind, h, ih]

theorem mapFind_mapSet_ne (m : TradesMap) (k k' : Nat) (v : List Trade)
    (h : k' ≠ k) : mapFind (mapSet m k v) k' = mapFind m k' := by
  induction m with
  | nil => simp [mapSet, mapFind, Ne.symm h]
  | cons hd tl ih =>
    by_cases hk : hd.1 = k
    · simp [mapSet, mapFind, hk, Ne.symm h, h]
    · by_cases hk' : hd.1 = k'
      · simp [mapSet, mapFind, hk, hk', h]
      · simp [mapSet, mapFind, hk, hk', ih]

theorem lastN_length_le {β : Type} (l : List β) (n : Nat) :
    (lastN l n).length ≤ n := by
  simp [lastN]
  omega

theorem lastN_suffix {β : Type} (l : List β) (n : Nat) :
    (lastN l n).IsSuffix l :=
  List.drop_suffix _ _

theorem capBucket_length (l : List Trade) :
    (capBucket l).length ≤ MAX_TRADES_PER_MARKET := by
  by_cases h : MAX_TRADES_PER_MARKET < l.length
  · simpa [capBucket, h] using lastN_length_le l MAX_TRADES_PER_MARKET
  · simp [capBucket, h]
    omega

theorem capBucket_suffix (l : List Trade) : (capBucket l).IsSuffix l := by
  by_cases h : MAX_TRADES_PER_MARKET < l.length
  · simpa [capBucket, h] using lastN_suffix l MAX_TRADES_PER_MARKET
  · simp [capBucket, h]

theorem mergeBucket_length (bucket ts : List Trade) :
    (mergeBucket bucket ts).length ≤ MAX_TRADES_PER_MARKET :=
  capBucket_length _

/-- C6, main induction: if every bucket of the current map is within the
bound, so is every bucket after the merge loop. -/
theorem mergeTrades_length_le (incoming : List (Nat × Option (List Trade))) :
    ∀ existing : TradesMap,
      (∀ mid b, mapFind existing mid = some b → b.length ≤ MAX_TRADES_PER_MARKET) →
      ∀ mid b, mapFind (mergeTrades existing incoming) mid = some b →
        b.length ≤ MAX_TRADES_PER_MARKET := by
  induction incoming with
  | nil => intro existing hex; simpa [mergeTrades] using hex
  | cons hd rest ih =>
    intro existing hex
    obtain ⟨mid', val⟩ := hd
    cases val with
    | none => simpa [mergeTrades] using ih existing hex
    | some ts =>
      cases hfind : mapFind existing mid' with
      | some bucket =>
        simp only [mergeTrades, hfind]
        apply ih
        intro mid b hb
        by_cases hmid : mid = mid'
        · subst hmid
          rw [mapFind_mapSet_self] at hb
          cases hb
          exact mergeBucket_length bucket ts
        · rw [mapFind_mapSet_ne _ _ _ _ hmid] at hb
          exact hex mid b hb
      | none =>
        simp only [mergeTrades, hfind]
        apply ih
        intro mid b hb
        by_cases hmid : mid = mid'
        · subst hmid
          rw [mapFind_mapSet_self] at hb
          cases hb
          exact lastN_length_le ts MAX_TRADES_PER_MARKET
        · rw [mapFind_mapSet_ne _ _ _ _ hmid] at hb
          exact hex mid b hb

/-! ## Dedup lemmas -/

/-- "No two trades with equal identity key in a bucket": the (present)
identity keys of the bucket are pairwise distinct. -/
def dedupOk (l : List Trade) : Prop := (l.filterMap tradeKey).Nodup

instance (l : List Trade) : Decidable (dedupOk l) := by
  unfold dedupOk; infer_instance

/-- The merge loop only appends trades whose key is outside `seen`, so it
introduces no duplicate keys as long as the bucket's keys all lie in `seen`. -/
theorem appendNewTrades_nodup (ts : List Trade) :
    ∀ bucket seen, (bucket.filterMap tradeKey).Nodup →
      (∀ k ∈ bucket.filterMap tradeKey, k ∈ seen) →
      ((appendNewTrades bucket seen ts).filterMap tradeKey).Nodup := by
  induction ts with
  | nil => intro bucket seen h _; simpa [appendNewTrades] using h
  | cons t ts ih =>
    intro bucket seen hnd hsub
    cases hkey : tradeKey t with
    | none => simpa [appendNewTrades, hkey] using ih bucket seen hnd hsub
    | some k =>
      by_cases hmem : k ∈ seen
      · simpa [appendNewTrades, hkey, hmem] using ih bucket seen hnd hsub
      · simp only [appendNewTrades, hkey, hmem, if_false]
        have hfil : (bucket ++ [t]).filterMap tradeKey
            = bucket.filterMap tradeKey ++ [k] := by
          rw [List.filterMap_append]
          simp [hkey]
        apply ih (bucket ++ [t]) (k :: seen)
        · rw [hfil, List.nodup_append]
          refine ⟨hnd, List.nodup_singleton k, ?_⟩
          intro a ha hb
          simp only [List.mem_singleton] at hb
          subst hb
          exact hmem (hsub a ha)
        · intro k' hk'
          rw [hfil] at hk'
          rcases List.mem_append.mp hk' with hk' | hk'
          · exact List.mem_cons_of_mem k (hsub k' hk')
          · simp only [List.mem_singleton] at hk'
            rw [hk']
            exact List.mem_cons_self _ _

theorem mergeBucket_dedup (bucket ts : List Trade) (h : dedupOk bucket) :
    dedupOk (mergeBucket bucket ts) := by
  have hnd : ((appendNewTrades bucket (existingKeys bucket) ts).filterMap tradeKey).Nodup :=
    appendNewTrades_nodup ts bucket (existingKeys bucket) h (fun k hk => hk)
  exact List.Nodup.sublist (List.Sublist.filterMap _ (capBucket_suffix _).sublist) hnd

/-- C1 amended, main induction.  `K` marks the markets whose buckets we track
(those present before the frame): through the merge loop every tracked market
stays present and its bucket stays duplicate-free. -/
theorem mergeTrades_dedup_invariant (incoming : List (Nat × Option (List Trade)))
    (K : Nat → Prop) :
    ∀ existing : TradesMap,
      (∀ mid, K mid → (mapFind existing mid).isSome) →
      (∀ mid b, K mid → mapFind existing mid = some b → dedupOk b) →
      ∀ mid b, K mid → mapFind (mergeTrades existing incoming) mid = some b →
        dedupOk b := by
  induction incoming with
  | nil => intro existing _ hdo; simpa [mergeTrades] using hdo
  | cons hd rest ih =>
    intro existing hsome hdo
    obtain ⟨mid', val⟩ := hd
    cases val with
    | none => simpa [mergeTrades] using ih existing hsome hdo
    | some ts =>
      cases hfind : mapFind existing mid' with
      | some bucket =>
        simp only [mergeTrades, hfind]
        apply ih
        · intro mid hK
          by_cases hmid : mid = mid'
          · subst hmid; simp [mapFind_mapSet_self]
          · rw [mapFind_mapSet_ne _ _ _ _ hmid]; exact hsome mid hK
        · intro mid b hK hb
          by_cases hmid : mid = mid'
          · subst hmid
            rw [mapFind_mapSet_self] at hb
            cases hb
            exact mergeBucket_dedup bucket ts (hdo _ bucket hK hfind)
          · rw [mapFind_mapSet_ne _ _ _ _ hmid] at hb
            exact hdo mid b hK hb
      | none =>
        simp only [mergeTrades, hfind]
        apply ih
        · intro mid hK
          by_cases hmid : mid = mid'
          · subst hmid
            have := hsome mid hK
            simp [hfind] at this
          · rw [mapFind_mapSet_ne _ _ _ _ hmid]; exact hsome mid hK
        · intro mid b hK hb
          by_cases hmid : mid = mid'
          · subst hmid
            have := hsome mid hK
            simp [hfind] at this
          · rw [mapFind_mapSet_ne _ _ _ _ hmid] at hb
            exact hdo mid b hK hb

/-! ## Retry machine characterization -/

/-- `record_failure` unfolded: the disconnect branch fires from the third
consecutive failure on. -/
theorem recordFailure_eq (c : RestConn) (now : Int) (err : String) :
    recordFailure c now err =
      (if 3 ≤ c.consecutiveFailures + 1 then
        advanceRetryPhase
          { c with
            totalRequests := c.totalRequests + 1
            failedRequests := c.failedRequests + 1
            lastFailedRequest := now
            consecutiveFailures := c.consecutiveFailures + 1
            lastError := err
            connected := false }
      else
        { c with
          totalRequests := c.totalRequests + 1
          failedRequests := c.failedRequests + 1
          lastFailedRequest := now
          consecutiveFailures := c.consecutiveFailures + 1
          lastError := err }) := rfl

/-- `_advance_retry_phase` unfolded. -/
theorem advanceRetryPhase_eq (c : RestConn) :
    advanceRetryPhase c =
      (if c.retryPhase = 1 ∧ RETRY_PHASE_1_MAX_ATTEMPTS ≤ c.phaseAttempts + 1 then
        { c with retryPhase := 2, phaseAttempts := 0 }
      else
        { c with phaseAttempts := c.phaseAttempts + 1 }) := rfl

/-- Closed form of the REST retry machine along a run of consecutive
failures from a freshly-reset state: failures 1–2 leave phase 1 with no
attempts, failures 3–6 are phase attempts 1–4, and the 7th failure is the
5th attempt and flips to phase 2. -/
theorem applyFailures_char (R : RestConn) (now : Int)
    (h1 : R.consecutiveFailures = 0) (h2 : R.retryPhase = 1)
    (h3 : R.phaseAttempts = 0) (n : Nat) :
    (applyFailures R now n).consecutiveFailures = n ∧
    (applyFailures R now n).retryPhase = (if n < 7 then 1 else 2) ∧
    (applyFailures R now n).phaseAttempts =
      (if n < 7 then n - 2 else n - 7) := by
  induction n with
  | zero => simp [applyFailures, h1, h2, h3]
  | succ n ih =>
    obtain ⟨ihc, ihp, iha⟩ := ih
    have hstep : applyFailures R now (n + 1)
        = recordFailure (applyFailures R now n) now "" := rfl
    rw [hstep, recordFailure_eq, advanceRetryPhase_eq]
    refine ⟨?_, ?_, ?_⟩ <;>
    · simp only [apply_ite RestConn.consecutiveFailures,
        apply_ite RestConn.retryPhase, apply_ite RestConn.phaseAttempts]
      simp only [ihc, ihp, iha, RETRY_PHASE_1_MAX_ATTEMPTS]
      split_ifs <;> omega

/-- `wsRecordFailure` (an exceptional `connect` iteration) unfolded. -/
theorem wsRecordFailure_eq (c : WsConn) :
    wsRecordFailure c =
      (if c.retryPhase = 1 ∧ RETRY_PHASE_1_MAX_ATTEMPTS ≤ c.phaseAttempts + 1 then
        { c with reconnectCount := c.reconnectCount + 1, connected := false,
                 retryPhase := 2, phaseAttempts := 0 }
      else
        { c with reconnectCount := c.reconnectCount + 1, connected := false,
                 phaseAttempts := c.phaseAttempts + 1 }) := rfl

/-- Closed form of the WebSocket retry machine: every exceptional iteration
is one phase attempt, so the 5th consecutive failure flips to phase 2. -/
theorem wsFailIter_char (w : WsConn) (h2 : w.retryPhase = 1)
    (h3 : w.phaseAttempts = 0) (n : Nat) :
    (wsFailIter w n).reconnectCount = w.reconnectCount + n ∧
    (wsFailIter w n).retryPhase = (if n < 5 then 1 else 2) ∧
    (wsFailIter w n).phaseAttempts = (if n < 5 then n else n - 5) := by
  induction n with
  | zero => simp [wsFailIter, h2, h3]
  | succ n ih =>
    obtain ⟨ihr, ihp, iha⟩ := ih
    have hstep : wsFailIter w (n + 1) = wsRecordFailure (wsFailIter w n) := rfl
    rw [hstep, wsRecordFailure_eq]
    refine ⟨?_, ?_, ?_⟩ <;>
    · simp only [apply_ite WsConn.reconnectCount,
        apply_ite WsConn.retryPhase, apply_ite WsConn.phaseAttempts]
      simp only [ihr, ihp, iha, RETRY_PHASE_1_MAX_ATTEMPTS]
      split_ifs <;> omega

/-! ## Claim theorems -/

/-- C10: zero TTL is unrepresentable through `set` — `set(key, value, ttl=0)`
(and likewise a `None` ttl) stores the entry with the cache's default TTL of
5 seconds because of `ttl or self.default_ttl`, so a `get(key)` immediately
after `set(key, v, 0)` returns `v`, not absent. -/
theorem zero_ttl_uses_default {α : Type} (c : Cache α) (k : String) (v : α)
    (t0 : Int) :
    cacheFind (cacheSet c k v (some 0) t0 defaultTtl) k = some ⟨v, t0, 5⟩ ∧
    cacheFind (cacheSet c k v none t0 defaultTtl) k = some ⟨v, t0, 5⟩ ∧
    (cacheGet (cacheSet c k v (some 0) t0 defaultTtl) k t0).1 = some v := by
  have h0 : cacheFind (cacheSet c k v (some 0) t0 defaultTtl) k
      = some ⟨v, t0, 5⟩ := by
    simpa [cacheSet, effectiveTtl, defaultTtl]
      using cacheFind_setEntry_self c k ⟨v, t0, 5⟩
  have hn : cacheFind (cacheSet c k v none t0 defaultTtl) k
      = some ⟨v, t0, 5⟩ := by
    simpa [cacheSet, effectiveTtl, defaultTtl]
      using cacheFind_setEntry_self c k ⟨v, t0, 5⟩
  refine ⟨h0, hn, ?_⟩
  simp [cacheGet, h0, cacheExpired]

/-- C2 counterexample: the claim quantifies over every ttl, but with
`ttl = 0` it fails — after `set("k", "v", 0)` at time 0, a `get` at time 1
(which satisfies 1 > 0 + 0) returns the value, not absent, because the falsy
ttl was replaced by the default. -/
theorem cache_ttl_zero_counterexample :
    (cacheGet (cacheSet ([] : Cache String) "k" "v" (some 0) 0 defaultTtl) "k" 1).1
      = some "v" ∧ ((0 : Int) + 0 < 1) := by
  exact ⟨by decide, by decide⟩

/-- C2 amended: for every *nonzero* ttl, after `set(k, v, ttl)` at `t0` a
`get(k)` at any `t > t0 + ttl` returns absent and removes the entry, and a
`get_all()` at such `t` omits `k` from its result and removes the expired
entry.  (A zero/falsy ttl is replaced by the default 5 s — see C10.) -/
theorem cache_ttl_expiry {α : Type} (c : Cache α) (k : String) (v : α)
    (ttl : Int) (t0 t : Int) (hkeys : (c.map Prod.fst).Nodup)
    (httl : ttl ≠ 0) (hexp : t0 + ttl < t) :
    (cacheGet (cacheSet c k v (some ttl) t0 defaultTtl) k t).1 = none ∧
    cacheFind (cacheGet (cacheSet c k v (some ttl) t0 defaultTtl) k t).2 k = none ∧
    (∀ p ∈ (cacheGetAll (cacheSet c k v (some ttl) t0 defaultTtl) t).1, p.1 ≠ k) ∧
    cacheFind (cacheGetAll (cacheSet c k v (some ttl) t0 defaultTtl) t).2 k = none := by
  have heff : effectiveTtl (some ttl) defaultTtl = ttl := by
    simp [effectiveTtl, httl]
  have hfind : cacheFind (cacheSet c k v (some ttl) t0 defaultTtl) k
      = some ⟨v, t0, ttl⟩ := by
    simp only [cacheSet, heff]
    exact cacheFind_setEntry_self c k ⟨v, t0, ttl⟩
  have hexpd : cacheExpired (⟨v, t0, ttl⟩ : CacheEntry α) t = true := by
    simp [cacheExpired]
    omega
  have hval : ∀ p ∈ cacheSet c k v (some ttl) t0 defaultTtl, p.1 = k →
      p.2 = ⟨v, t0, ttl⟩ := by
    intro p hp hpk
    have := setEntry_key_unique c k
      (⟨v, t0, effectiveTtl (some ttl) defaultTtl⟩ : CacheEntry α) hkeys p hp hpk
    rwa [heff] at this
  refine ⟨?_, ?_, ?_, ?_⟩
  · simp [cacheGet, hfind, hexpd]
  · simp only [cacheGet, hfind, hexpd, if_pos]
    exact cacheFind_delete_self _ k
  · intro p hp hpk
    rw [cacheGetAll] at hp
    simp only [List.mem_filterMap] at hp
    obtain ⟨q, hq, hfq⟩ := hp
    by_cases hqe : cacheExpired q.2 t
    · simp [hqe] at hfq
    · simp only [hqe, Bool.false_eq_true, if_false, Option.some.injEq] at hfq
      have hq1 : q.1 = k := by rw [← hfq] at hpk; exact hpk
      have := hval q hq hq1
      rw [this] at hqe
      exact hqe (by rw [hexpd])
  · rw [cacheGetAll]
    exact cacheFind_filter_none _ k _ (fun p hp hpk => by
      rw [hval p hp hpk, hexpd]
      rfl)

/-- C2 witness: a concrete run of the amended theorem — ttl 1, insert at 0,
read at 2. -/
theorem cache_ttl_expiry_witness :
    (cacheGet (cacheSet ([] : Cache String) "k" "v" (some 1) 0 defaultTtl) "k" 2).1 = none ∧
    cacheFind (cacheGet (cacheSet ([] : Cache String) "k" "v" (some 1) 0 defaultTtl) "k" 2).2 "k" = none ∧
    (∀ p ∈ (cacheGetAll (cacheSet ([] : Cache String) "k" "v" (some 1) 0 defaultTtl) 2).1, p.1 ≠ "k") ∧
    cacheFind (cacheGetAll (cacheSet ([] : Cache String) "k" "v" (some 1) 0 defaultTtl) 2).2 "k" = none :=
  cache_ttl_expiry ([] : Cache String) "k" "v" 1 0 2 (by decide) (by decide) (by decide)

/-- C5: whenever a REST connector is disconnected and still inside the retry
interval of its current phase, `fetch_account_data` and `fetch_active_orders`
issue no upstream request (first component `false`, the upstream outcome is
never consulted), return the last cached value, and leave the connection
state untouched. -/
theorem backoff_skip_no_request {α β : Type} (conn : RestConn) (now : Int)
    (cached : Option α) (upstream : AccountFetchOutcome α)
    (cachedOrders : List β) (upstreamOrders : OrdersFetchOutcome β)
    (hconn : conn.connected = false)
    (hint : now - conn.lastFailedRequest < retryInterval conn.retryPhase) :
    fetch_account_data conn now cached upstream = (false, cached, conn) ∧
    fetch_active_orders conn now cachedOrders upstreamOrders
      = (false, cachedOrders, conn) := by
  have hskip : shouldSkipRequest conn now = true := by
    simp [shouldSkipRequest, hconn, hint]
  constructor
  · simp [fetch_account_data, hskip]
  · simp [fetch_active_orders, hskip]

/-- C5 witness: a disconnected phase-1 connection 10 s after its last
failure skips both fetches. -/
theorem backoff_skip_no_request_witness :
    fetch_account_data (⟨false, 0, 100, 5, 2, 3, 1, 0, 3, "err", []⟩ : RestConn)
        110 (some 42) (AccountFetchOutcome.exc "boom")
      = (false, some 42, (⟨false, 0, 100, 5, 2, 3, 1, 0, 3, "err", []⟩ : RestConn)) ∧
    fetch_active_orders (⟨false, 0, 100, 5, 2, 3, 1, 0, 3, "err", []⟩ : RestConn)
        110 [(7 : Nat)] OrdersFetchOutcome.http429
      = (false, [(7 : Nat)], (⟨false, 0, 100, 5, 2, 3, 1, 0, 3, "err", []⟩ : RestConn)) :=
  backoff_skip_no_request _ 110 (some 42) (AccountFetchOutcome.exc "boom")
    [(7 : Nat)] OrdersFetchOutcome.http429 (by decide) (by decide)

/-- C4 counterexample: from a fresh connection state, 7 consecutive failures
already reach PHASE2 — not the claimed 3 + 5 = 8 — because the third failure
both trips the disconnect threshold and counts as the first phase attempt. -/
theorem retry_phase_seven_counterexample :
    (applyFailures initRestConn 0 7).retryPhase = 2 ∧ ¬ (3 + 5 ≤ 7) := by
  exact ⟨by decide, by decide⟩

/-- C4 amended: without an intervening success, a REST connector reaches
PHASE2 iff it has taken at least 7 consecutive failures (the 3rd through 7th
failures are phase attempts 1–5), both from the initial state and from any
post-success state; a WebSocket connector, whose every failed connect
iteration is a phase attempt with no 3-failure threshold, reaches PHASE2 iff
at least 5 consecutive failures. -/
theorem retry_phase_reach (R : RestConn) (w : WsConn) (now t : Int)
    (n m j : Nat) (hw1 : w.retryPhase = 1) (hw2 : w.phaseAttempts = 0) :
    ((applyFailures initRestConn t n).retryPhase = 2 ↔ 7 ≤ n) ∧
    ((applyFailures (recordSuccess R now) now m).retryPhase = 2 ↔ 7 ≤ m) ∧
    ((wsFailIter w j).retryPhase = 2 ↔ 5 ≤ j) := by
  refine ⟨?_, ?_, ?_⟩
  · have h := (applyFailures_char initRestConn t rfl rfl rfl n).2.1
    rw [h]
    by_cases h7 : n < 7
    · simp only [if_pos h7]
      constructor
      · omega
      · omega
    · simp only [if_neg h7]
      constructor
      · intro _; omega
      · intro _; trivial
  · have h := (applyFailures_char (recordSuccess R now) now rfl rfl rfl m).2.1
    rw [h]
    by_cases h7 : m < 7
    · simp only [if_pos h7]
      constructor
      · omega
      · omega
    · simp only [if_neg h7]
      constructor
      · intro _; omega
      · intro _; trivial
  · have h := (wsFailIter_char w hw1 hw2 j).2.1
    rw [h]
    by_cases h5 : j < 5
    · simp only [if_pos h5]
      constructor
      · omega
      · omega
    · simp only [if_neg h5]
      constructor
      · intro _; omega
      · intro _; trivial

/-- C4 witness: the amended iff at the boundary counts 7 (REST, both from
init and after a success) and 5 (WebSocket). -/
theorem retry_phase_reach_witness :
    ((applyFailures initRestConn 0 7).retryPhase = 2 ↔ 7 ≤ 7) ∧
    ((applyFailures (recordSuccess initRestConn 0) 0 6).retryPhase = 2 ↔ 7 ≤ 6) ∧
    ((wsFailIter (⟨true, 0, 0, 0, 0, 1, 0⟩ : WsConn) 5).retryPhase = 2 ↔ 5 ≤ 5) :=
  retry_phase_reach initRestConn ⟨true, 0, 0, 0, 0, 1, 0⟩ 0 0 7 6 5 rfl rfl

/-- C1 counterexample: a single `account_all_trades` frame that introduces a
brand-new market bucket whose list repeats the identity key `"a"` is stored
verbatim (`existing_trades[market_id] = market_trades[-500:]` performs no
dedup), so the stored bucket holds two trades with equal identity key. -/
theorem trade_dedup_counterexample :
    cacheFind
        (handleTradesFrame [] [] "account_all_trades/7"
          [(1, some [⟨some "a", none, none, 1⟩, ⟨some "a", none, none, 2⟩])]
          ⟨none, none, none, none⟩ 0) "ws_trades:7"
      = some ⟨⟨[(1, [⟨some "a", none, none, 1⟩, ⟨some "a", none, none, 2⟩])],
          ⟨none, none, none, none⟩, 0⟩, 0, 3600⟩ ∧
    ¬ dedupOk [⟨some "a", none, none, 1⟩, ⟨some "a", none, none, 2⟩] := by
  exact ⟨by decide, by decide⟩

/-- C1 amended: dedup holds for every market bucket that already existed
before the frame — if every existing bucket is free of duplicate identity
keys, then after the merge every bucket of a market that was present before
is still duplicate-free (the merge path skips every incoming trade whose key
is already present).  A brand-new market bucket, by contrast, stores the
incoming list's last 500 entries verbatim and may contain duplicates. -/
theorem trade_dedup_existing_buckets (existing : TradesMap)
    (incoming : List (Nat × Option (List Trade)))
    (hex : ∀ mid b, mapFind existing mid = some b → dedupOk b) :
    ∀ mid b, (mapFind existing mid).isSome →
      mapFind (mergeTrades existing incoming) mid = some b → dedupOk b := by
  intro mid b hsome hb
  exact mergeTrades_dedup_invariant incoming (fun m => (mapFind existing m).isSome)
    existing (fun _ h => h) (fun mid' b' _ h => hex mid' b' h) mid b hsome hb

/-- C1 witness: merging a frame that repeats the existing key `"a"` and adds
`"b"` into the pre-existing bucket for market 1 yields a duplicate-free
bucket. -/
theorem trade_dedup_existing_buckets_witness :
    dedupOk [⟨some "a", none, none, 1⟩, ⟨some "b", none, none, 7⟩] :=
  trade_dedup_existing_buckets [(1, [⟨some "a", none, none, 1⟩])]
    [(1, some [⟨some "a", none, none, 5⟩, ⟨some "b", none, none, 7⟩])]
    (by
      intro mid b h
      by_cases hm : (1 : Nat) = mid
      · simp only [mapFind, if_pos hm, Option.some.injEq] at h
        rw [← h]
        decide
      · simp only [mapFind, if_neg hm] at h
        exact Option.noConfusion h)
    1 [⟨some "a", none, none, 1⟩, ⟨some "b", none, none, 7⟩]
    (by decide) (by decide)

/-- C3 (code bug): the trades branch of `on_ws_message` computes
`_get_exchange_for_account_id(account_id)` before writing the cache, and for
a *configured* account that call evaluates `account.exchange` on an
`AccountConfig` that declares no such field, raising `AttributeError` — which
the branch's `except (ValueError, TypeError)` does not catch.  So with
account 7 configured, delivering scenario S1's frame leaves `ws_trades:7`
exactly as it was (first conjunct); the claimed merged rewrite (trades[1] =
[a, b, c], trades[2] = [x], daily volume 100, timestamp = now, TTL 3600) is
what the same code produces only when account 7 is *not* configured (second
conjunct), which is the evident intent. -/
theorem trade_merge_exchange_bug :
    handleTradesFrame [⟨"Lighter_1", 7, 2, "pk", "pub", none⟩]
        [("ws_trades:7", ⟨⟨[(1, [⟨some "a", none, none, 1⟩, ⟨some "b", none, none, 2⟩])],
          ⟨none, none, none, none⟩, 0⟩, 0, 3600⟩)]
        "account_all_trades/7"
        [(1, some [⟨some "b", none, none, 2⟩, ⟨some "c", none, none, 3⟩]),
         (2, some [⟨some "x", none, none, 9⟩])]
        ⟨none, none, none, some 100⟩ 10
      = [("ws_trades:7", ⟨⟨[(1, [⟨some "a", none, none, 1⟩, ⟨some "b", none, none, 2⟩])],
          ⟨none, none, none, none⟩, 0⟩, 0, 3600⟩)] ∧
    cacheFind
        (handleTradesFrame []
          [("ws_trades:7", ⟨⟨[(1, [⟨some "a", none, none, 1⟩, ⟨some "b", none, none, 2⟩])],
            ⟨none, none, none, none⟩, 0⟩, 0, 3600⟩)]
          "account_all_trades/7"
          [(1, some [⟨some "b", none, none, 2⟩, ⟨some "c", none, none, 3⟩]),
           (2, some [⟨some "x", none, none, 9⟩])]
          ⟨none, none, none, some 100⟩ 10) "ws_trades:7"
      = some ⟨⟨[(1, [⟨some "a", none, none, 1⟩, ⟨some "b", none, none, 2⟩,
            ⟨some "c", none, none, 3⟩]), (2, [⟨some "x", none, none, 9⟩])],
          ⟨none, none, none, some 100⟩, 10⟩, 10, 3600⟩ := by
  exact ⟨by decide, by decide⟩

/-- C6: trade retention — if every bucket satisfies the 500 bound before a
merge it does afterwards; moreover a merged bucket is bounded by 500 whatever
the size of the existing bucket or of the incoming list, and truncation
keeps a suffix (the most recent entries) of the appended sequence, resp. of
the incoming list for a brand-new market. -/
theorem trade_retention_bound (existing : TradesMap)
    (incoming : List (Nat × Option (List Trade)))
    (hex : ∀ mid b, mapFind existing mid = some b →
      b.length ≤ MAX_TRADES_PER_MARKET) :
    (∀ mid b, mapFind (mergeTrades existing incoming) mid = some b →
        b.length ≤ MAX_TRADES_PER_MARKET) ∧
    (∀ bucket ts : List Trade,
        (mergeBucket bucket ts).length ≤ MAX_TRADES_PER_MARKET ∧
        (mergeBucket bucket ts).IsSuffix
          (appendNewTrades bucket (existingKeys bucket) ts)) ∧
    (∀ ts : List Trade,
        (lastN ts MAX_TRADES_PER_MARKET).length ≤ MAX_TRADES_PER_MARKET ∧
        (lastN ts MAX_TRADES_PER_MARKET).IsSuffix ts) := by
  refine ⟨mergeTrades_length_le incoming existing hex, ?_, ?_⟩
  · intro bucket ts
    exact ⟨mergeBucket_length bucket ts, capBucket_suffix _⟩
  · intro ts
    exact ⟨lastN_length_le ts _, lastN_suffix ts _⟩

/-- C6 witness: a concrete merge from the empty map (a brand-new bucket with
a repeated entry and one merged market) stays within the bound. -/
theorem trade_retention_bound_witness :
    (∀ mid b, mapFind (mergeTrades []
        [(1, some [⟨some "a", none, none, 1⟩, ⟨some "a", none, none, 2⟩])]) mid
          = some b → b.length ≤ MAX_TRADES_PER_MARKET) ∧
    (∀ bucket ts : List Trade,
        (mergeBucket bucket ts).length ≤ MAX_TRADES_PER_MARKET ∧
        (mergeBucket bucket ts).IsSuffix
          (appendNewTrades bucket (existingKeys bucket) ts)) ∧
    (∀ ts : List Trade,
        (lastN ts MAX_TRADES_PER_MARKET).length ≤ MAX_TRADES_PER_MARKET ∧
        (lastN ts MAX_TRADES_PER_MARKET).IsSuffix ts) :=
  trade_retention_bound []
    [(1, some [⟨some "a", none, none, 1⟩, ⟨some "a", none, none, 2⟩])]
    (by intro mid b h; simp [mapFind] at h)

/-! ## Broadcast lemmas -/

theorem broadcastLoop_eq {σ : Type} (send : σ → Bool) (msg : String)
    (subs : List σ) :
    broadcastLoop send msg subs
      = ((subs.filter send).map (fun s => (s, msg)),
         subs.filter (fun s => !send s)) := by
  induction subs with
  | nil => simp [broadcastLoop]
  | cons s rest ih =>
    by_cases h : send s <;>
      simp [broadcastLoop, h, ih, List.filter_cons]

theorem discardAll_failed {σ : Type} [DecidableEq σ] (send : σ → Bool)
    (subs : List σ) :
    discardAll subs (subs.filter (fun s => !send s)) = subs.filter send := by
  apply List.filter_congr
  intro x hx
  by_cases hs : send x
  · simp [hs, List.mem_filter]
  · simp [hs, List.mem_filter, hx]

theorem count_map_pair {σ : Type} [DecidableEq σ] (l : List σ) (msg : String)
    (s : σ) :
    (l.map (fun x => (x, msg))).count (s, msg) = l.count s := by
  induction l with
  | nil => simp
  | cons a rest ih =>
    by_cases h : a = s
    · simp [List.count_cons, h, ih]
    · simp [List.count_cons, h, ih]

/-- `broadcast` characterized: the deliveries are one serialized copy of the
frame per subscriber whose send succeeds, and the surviving set is exactly
the successful subscribers. -/
theorem broadcast_eq {σ Fr : Type} [DecidableEq σ] (send : σ → Bool)
    (serialize : Fr → String) (subs : List σ) (frame : Fr) :
    broadcast send serialize subs frame
      = ((subs.filter send).map (fun s => (s, serialize frame)),
         subs.filter send) := by
  cases subs with
  | nil => simp [broadcast]
  | cons a rest =>
    have h1 : broadcast send serialize (a :: rest) frame
        = ((broadcastLoop send (serialize frame) (a :: rest)).1,
           discardAll (a :: rest)
             (broadcastLoop send (serialize frame) (a :: rest)).2) := rfl
    rw [h1]
    simp only [broadcastLoop_eq, discardAll_failed]

/-- C7: after `broadcast(f)` every subscriber whose send succeeds has
received exactly one copy of the one serialization of `f`, every subscriber
whose send fails has been detached, and the remaining `count()` equals the
number of successful sends. -/
theorem broadcast_fanout {σ Fr : Type} [DecidableEq σ] (send : σ → Bool)
    (serialize : Fr → String) (subs : List σ) (frame : Fr)
    (hnd : subs.Nodup) :
    (∀ s ∈ subs, send s = true →
        (broadcast send serialize subs frame).1.count (s, serialize frame) = 1 ∧
        s ∈ (broadcast send serialize subs frame).2) ∧
    (∀ s ∈ subs, send s = false →
        s ∉ (broadcast send serialize subs frame).2) ∧
    (broadcast send serialize subs frame).2.length = subs.countP send ∧
    (∀ p ∈ (broadcast send serialize subs frame).1, p.2 = serialize frame) := by
  simp only [broadcast_eq]
  refine ⟨?_, ?_, ?_, ?_⟩
  · intro s hs hsend
    constructor
    · have h2 : (subs.filter send).count s = 1 :=
        List.count_eq_one_of_mem (hnd.filter send)
          (List.mem_filter.mpr ⟨hs, hsend⟩)
      exact (count_map_pair (subs.filter send) (serialize frame) s).trans h2
    · exact List.mem_filter.mpr ⟨hs, hsend⟩
  · intro s _ hsend hmem
    have := (List.mem_filter.mp hmem).2
    rw [hsend] at this
    exact Bool.noConfusion this
  · exact (@List.countP_eq_length_filter σ send subs).symm
  · intro p hp
    obtain ⟨q, _, hq⟩ := List.mem_map.mp hp
    rw [← hq]

/-- C7 witness: scenario S5 — subscribers 1 and 2 attached, 2 errors on
write: 1 received the frame once, 2 is detached, `count() = 1`. -/
theorem broadcast_fanout_witness :
    (broadcast (fun s => s == 1) (fun n => toString n) [1, 2] (0 : Nat)).1.count
        ((1 : Nat), toString (0 : Nat)) = 1 ∧
    (2 : Nat) ∉ (broadcast (fun s => s == 1) (fun n => toString n) [1, 2] (0 : Nat)).2 ∧
    (broadcast (fun s => s == 1) (fun n => toString n) [1, 2] (0 : Nat)).2.length = 1 := by
  have h := broadcast_fanout (fun s : Nat => s == 1) (fun n => toString n)
    [1, 2] (0 : Nat) (by decide)
  exact ⟨(h.1 1 (by decide) (by decide)).1,
    h.2.1 2 (by decide) (by decide),
    h.2.2.1.trans (by decide)⟩

/-- C8 counterexample: a read loop ended by a server CLOSED frame performs
none of the claimed bookkeeping — `reconnect_count` stays 0 and no ErrorEntry
is recorded — refuting "on every exit of the WS read loop, whatever the
cause". -/
theorem ws_reconnect_clean_exit_counterexample :
    handleLoopExit ⟨true, 0, 0, 0, 0, 1, 0⟩ 7 "Lighter_1" 100 LoopExit.closedFrame
      = (⟨true, 0, 0, 0, 0, 1, 0⟩, none) ∧
    (⟨true, 0, 0, 0, 0, 1, 0⟩ : WsConn).reconnectCount = 0 := by
  exact ⟨rfl, rfl⟩

/-- C8 amended: reconnect bookkeeping happens exactly at the exceptional
iteration exits.  Over any run of connect iterations, `reconnect_count` and
the retry machine advance once per raised exception (`wsFailIter` applied
that many times), one websocket-source ErrorEntry of kind `"429"`,
`"connection"` or `"exception"` is recorded per exceptional exit, and the
clean exits (server CLOSED frame, ERROR frame, heartbeat-forced close)
contribute nothing before the retry wait. -/
theorem ws_reconnect_accounting (c : WsConn) (idx : Int) (name : String)
    (now : Int) (causes : List LoopExit) :
    (processExits idx name now c causes).1
      = wsFailIter c (causes.countP isExceptionExit) ∧
    (processExits idx name now c causes).2.length
      = causes.countP isExceptionExit ∧
    (processExits idx name now c causes).2.all
      (fun e => e.source == "websocket" &&
        (e.errorType == "429" || e.errorType == "connection" ||
          e.errorType == "exception")) = true := by
  induction causes generalizing c with
  | nil => simp [processExits, wsFailIter]
  | cons cause rest ih =>
    have hshift : ∀ n : Nat, wsFailIter (wsRecordFailure c) n
        = wsFailIter c (n + 1) := by
      intro n
      induction n with
      | zero => rfl
      | succ n ihn => show wsRecordFailure _ = _; rw [ihn]; rfl
    cases cause with
    | closedFrame =>
      simpa [processExits, handleLoopExit, List.countP_cons, isExceptionExit]
        using ih c
    | errorFrame =>
      simpa [processExits, handleLoopExit, List.countP_cons, isExceptionExit]
        using ih c
    | heartbeatClose =>
      simpa [processExits, handleLoopExit, List.countP_cons, isExceptionExit]
        using ih c
    | clientError msg =>
      obtain ⟨ih1, ih2, ih3⟩ := ih (wsRecordFailure c)
      have hstep : processExits idx name now c (LoopExit.clientError msg :: rest)
          = ((processExits idx name now (wsRecordFailure c) rest).1,
             mkErrorEntry now idx name
               (if strHas429 msg then "429" else "connection") (msg.take 100)
               "websocket" (if strHas429 msg then some 429 else none)
               :: (processExits idx name now (wsRecordFailure c) rest).2) := rfl
      rw [hstep]
      have hcount : (LoopExit.clientError msg :: rest).countP isExceptionExit
          = rest.countP isExceptionExit + 1 := by
        simp [List.countP_cons, isExceptionExit]
      refine ⟨?_, ?_, ?_⟩
      · rw [hcount, ← hshift]
        exact ih1
      · simp only [List.length_cons, ih2, hcount]
      · simp only [List.all_cons, ih3, Bool.and_true]
        by_cases h429 : strHas429 msg <;> simp [mkErrorEntry, h429]
    | exc msg =>
      obtain ⟨ih1, ih2, ih3⟩ := ih (wsRecordFailure c)
      have hstep : processExits idx name now c (LoopExit.exc msg :: rest)
          = ((processExits idx name now (wsRecordFailure c) rest).1,
             mkErrorEntry now idx name
               (if strHas429 msg then "429" else "exception") (msg.take 100)
               "websocket" (if strHas429 msg then some 429 else none)
               :: (processExits idx name now (wsRecordFailure c) rest).2) := rfl
      rw [hstep]
      have hcount : (LoopExit.exc msg :: rest).countP isExceptionExit
          = rest.countP isExceptionExit + 1 := by
        simp [List.countP_cons, isExceptionExit]
      refine ⟨?_, ?_, ?_⟩
      · rw [hcount, ← hshift]
        exact ih1
      · simp only [List.length_cons, ih2, hcount]
      · simp only [List.all_cons, ih3, Bool.and_true]
        by_cases h429 : strHas429 msg <;> simp [mkErrorEntry, h429]

/-! ## Read-loop lemmas -/

/-- The read loop consumes exactly the messages before the first ERROR or
CLOSED frame, dispatches every well-formed text frame among them (whatever
the callbacks do), and counts every text frame. -/
theorem readLoop_run {Fr : Type} (cbs : List (Fr → Except String Unit)) :
    ∀ (msgs : List (Int × InMsg Fr)) (st : ReaderState Fr),
      readLoop cbs st msgs
        = readLoop cbs st (msgs.takeWhile (fun m => !isBreakMsg m.2)) ∧
      (readLoop cbs st msgs).dispatched
        = st.dispatched
          ++ (msgs.takeWhile (fun m => !isBreakMsg m.2)).filterMap
              (fun m => frameOf m.2) ∧
      (readLoop cbs st msgs).totalMessages
        = st.totalMessages
          + (msgs.takeWhile (fun m => !isBreakMsg m.2)).countP
              (fun m => isTextMsg m.2) := by
  intro msgs
  induction msgs with
  | nil => intro st; simp [readLoop]
  | cons hd rest ih =>
    intro st
    obtain ⟨t, m⟩ := hd
    cases m with
    | text p =>
      cases p with
      | malformed =>
        have htake : ((t, InMsg.text (TextPayload.malformed : TextPayload Fr)) :: rest).takeWhile
              (fun m => !isBreakMsg m.2)
            = (t, InMsg.text TextPayload.malformed)
              :: rest.takeWhile (fun m => !isBreakMsg m.2) := by
          simp [isBreakMsg]
        obtain ⟨ih1, ih2, ih3⟩ := ih
          { st with lastMessageTime := t,
                    totalMessages := st.totalMessages + 1,
                    logged := st.logged ++ ["Invalid JSON from WS"] }
        have hstep : readLoop cbs st
              ((t, InMsg.text (TextPayload.malformed : TextPayload Fr)) :: rest)
            = readLoop cbs
                { st with lastMessageTime := t,
                          totalMessages := st.totalMessages + 1,
                          logged := st.logged ++ ["Invalid JSON from WS"] }
                rest := rfl
        have e2 : ({ st with lastMessageTime := t,
                             totalMessages := st.totalMessages + 1,
                             logged := st.logged ++ ["Invalid JSON from WS"] }
            : ReaderState Fr).dispatched = st.dispatched := rfl
        have e3 : ({ st with lastMessageTime := t,
                             totalMessages := st.totalMessages + 1,
                             logged := st.logged ++ ["Invalid JSON from WS"] }
            : ReaderState Fr).totalMessages = st.totalMessages + 1 := rfl
        refine ⟨?_, ?_, ?_⟩
        · rw [htake]
          exact ih1
        · rw [htake, hstep, ih2, e2]
          simp [frameOf]
        · rw [htake, hstep, ih3, e3, List.countP_cons]
          simp [isTextMsg]
          omega
      | frame f =>
        have htake : ((t, InMsg.text (TextPayload.frame f)) :: rest).takeWhile
              (fun m => !isBreakMsg m.2)
            = (t, InMsg.text (TextPayload.frame f))
              :: rest.takeWhile (fun m => !isBreakMsg m.2) := by
          simp [isBreakMsg]
        obtain ⟨ih1, ih2, ih3⟩ := ih
          { st with lastMessageTime := t,
                    totalMessages := st.totalMessages + 1,
                    dispatched := st.dispatched ++ [f],
                    logged := st.logged ++ notifyCallbacks cbs f }
        have hstep : readLoop cbs st ((t, InMsg.text (TextPayload.frame f)) :: rest)
            = readLoop cbs
                { st with lastMessageTime := t,
                          totalMessages := st.totalMessages + 1,
                          dispatched := st.dispatched ++ [f],
                          logged := st.logged ++ notifyCallbacks cbs f }
                rest := rfl
        have e2 : ({ st with lastMessageTime := t,
                             totalMessages := st.totalMessages + 1,
                             dispatched := st.dispatched ++ [f],
                             logged := st.logged ++ notifyCallbacks cbs f }
            : ReaderState Fr).dispatched = st.dispatched ++ [f] := rfl
        have e3 : ({ st with lastMessageTime := t,
                             totalMessages := st.totalMessages + 1,
                             dispatched := st.dispatched ++ [f],
                             logged := st.logged ++ notifyCallbacks cbs f }
            : ReaderState Fr).totalMessages = st.totalMessages + 1 := rfl
        refine ⟨?_, ?_, ?_⟩
        · rw [htake]
          exact ih1
        · rw [htake, hstep, ih2, e2]
          simp [frameOf]
        · rw [htake, hstep, ih3, e3, List.countP_cons]
          simp [isTextMsg]
          omega
    | pong =>
      have htake : ((t, (InMsg.pong : InMsg Fr)) :: rest).takeWhile
            (fun m => !isBreakMsg m.2)
          = (t, InMsg.pong) :: rest.takeWhile (fun m => !isBreakMsg m.2) := by
        simp [isBreakMsg]
      obtain ⟨ih1, ih2, ih3⟩ := ih { st with lastPongTime := t }
      have hstep : readLoop cbs st ((t, (InMsg.pong : InMsg Fr)) :: rest)
          = readLoop cbs { st with lastPongTime := t } rest := rfl
      have e2 : ({ st with lastPongTime := t } : ReaderState Fr).dispatched
          = st.dispatched := rfl
      have e3 : ({ st with lastPongTime := t } : ReaderState Fr).totalMessages
          = st.totalMessages := rfl
      refine ⟨?_, ?_, ?_⟩
      · rw [htake]
        exact ih1
      · rw [htake, hstep, ih2, e2]
        simp [frameOf]
      · rw [htake, hstep, ih3, e3, List.countP_cons]
        simp [isTextMsg]
    | errorFrame =>
      have htake : ((t, (InMsg.errorFrame : InMsg Fr)) :: rest).takeWhile
            (fun m => !isBreakMsg m.2) = [] := by
        simp [isBreakMsg]
      rw [htake]
      refine ⟨rfl, by simp [readLoop], by simp [readLoop]⟩
    | closedFrame =>
      have htake : ((t, (InMsg.closedFrame : InMsg Fr)) :: rest).takeWhile
            (fun m => !isBreakMsg m.2) = [] := by
        simp [isBreakMsg]
      rw [htake]
      refine ⟨rfl, by simp [readLoop], by simp [readLoop]⟩

/-- C9: read-loop robustness — neither a malformed payload nor an exception
raised by a registered callback terminates the read loop.  The loop runs to
the first ERROR/CLOSED frame; every well-formed text frame before that point
is dispatched and counted regardless of interleaved malformed frames; and the
dispatch and message count are identical for any two callback lists, i.e.
callback exceptions (caught inside `_notify_callbacks`) do not change the
loop's behaviour. -/
theorem read_loop_robust {Fr : Type}
    (cbs cbs2 : List (Fr → Except String Unit)) (st : ReaderState Fr)
    (msgs : List (Int × InMsg Fr)) :
    readLoop cbs st msgs
      = readLoop cbs st (msgs.takeWhile (fun m => !isBreakMsg m.2)) ∧
    (readLoop cbs st msgs).dispatched
      = st.dispatched
        ++ (msgs.takeWhile (fun m => !isBreakMsg m.2)).filterMap
            (fun m => frameOf m.2) ∧
    (readLoop cbs st msgs).totalMessages
      = st.totalMessages
        + (msgs.takeWhile (fun m => !isBreakMsg m.2)).countP
            (fun m => isTextMsg m.2) ∧
    (readLoop cbs st msgs).dispatched = (readLoop cbs2 st msgs).dispatched ∧
    (readLoop cbs st msgs).totalMessages
      = (readLoop cbs2 st msgs).totalMessages := by
  obtain ⟨h1, h2, h3⟩ := readLoop_run cbs msgs st
  obtain ⟨_, h2b, h3b⟩ := readLoop_run cbs2 msgs st
  exact ⟨h1, h2, h3, h2.trans h2b.symm, h3.trans h3b.symm⟩

end LighterBroadcaster
